import Mathlib

/-!
Verification development for the cordova-icon asset-generation pipeline
(`index.js`).  The JavaScript source is shallowly embedded: pure helpers
become Lean functions, the promise pipeline becomes a state-and-error monad
`P` whose state carries the mutable run configuration (the global `program`
object) and a trace of observable effects (file reads, warnings, resize
invocations).  External collaborators (filesystem, XML parser, imagemagick)
are modelled as an oracle `World` passed to every operation.
-/

namespace CordovaIcon

/-! ### Path templating (`processPath`, index.js lines 51-54)

`var projectNameRE = /\$PROJECT_NAME/g;`
`var processPath = function (path, projectName) { return path.replace(projectNameRE, projectName); };`

JavaScript `String.prototype.replace` interprets substitution patterns in the
replacement string (ECMAScript GetSubstitution): with the zero-capture-group
pattern above, `$$` yields a literal dollar, `$&` yields the matched text,
a dollar followed by a backquote yields the part of the original string
before the match, and a dollar followed by a single quote yields the part
after the match; every other sequence is literal.  The embedding reproduces
this. -/

/-- The characters of the fixed placeholder token `$PROJECT_NAME`. -/
def tokenChars : List Char := "$PROJECT_NAME".data

/-- `startsWithL patt l` : does `l` start with `patt`? -/
def startsWithL : List Char → List Char → Bool
  | [], _ => true
  | _ :: _, [] => false
  | p :: ps, c :: cs => p == c && startsWithL ps cs

/-- ECMAScript GetSubstitution for a pattern with zero capture groups.
`matched` is the matched text, `before` the original text before the match,
`after` the original text after it; the scanned list is the replacement
string.  Backquote and single quote are compared by code point (96, 39). -/
def getSubstitution (matched before after : List Char) : List Char → List Char
  | [] => []
  | [c] => [c]
  | c :: d :: rest =>
    if c == '$' then
      if d == '$' then '$' :: getSubstitution matched before after rest
      else if d == '&' then matched ++ getSubstitution matched before after rest
      else if d.toNat == 96 then before ++ getSubstitution matched before after rest
      else if d.toNat == 39 then after ++ getSubstitution matched before after rest
      else c :: getSubstitution matched before after (d :: rest)
    else c :: getSubstitution matched before after (d :: rest)

/-- Global leftmost replacement of `tokenChars`, with JS substitution
semantics for the replacement `repl`.  `pre` is the already-scanned prefix
of the original string (needed by GetSubstitution).  The `skip` counter
consumes, one character per step, the tail of a token occurrence whose
substitution has already been emitted; this keeps the recursion
structural. -/
def replaceGo (repl : List Char) : Nat → List Char → List Char → List Char
  | _, _, [] => []
  | skip + 1, pre, c :: cs => replaceGo repl skip (pre ++ [c]) cs
  | 0, pre, c :: cs =>
    if startsWithL tokenChars (c :: cs) then
      getSubstitution tokenChars pre ((c :: cs).drop tokenChars.length) repl
        ++ replaceGo repl (tokenChars.length - 1) (pre ++ [c]) cs
    else c :: replaceGo repl 0 (pre ++ [c]) cs

/-- `processPath` from index.js: replace every occurrence of
`$PROJECT_NAME` in `p` by `projectName` via JS `String.replace`. -/
def processPath (p projectName : String) : String :=
  String.mk (replaceGo projectName.data 0 [] p.data)

/-- Follows the spec text of §4.1, for comparison with `processPath`:
"replaces every occurrence of a fixed placeholder token with projectName" -
the replacement is inserted literally, with no substitution-pattern
interpretation. -/
def replaceSpecGo (repl : List Char) : Nat → List Char → List Char
  | _, [] => []
  | skip + 1, _ :: cs => replaceSpecGo repl skip cs
  | 0, c :: cs =>
    if startsWithL tokenChars (c :: cs) then
      repl ++ replaceSpecGo repl (tokenChars.length - 1) cs
    else c :: replaceSpecGo repl 0 cs

/-- Literal replacement of the placeholder, as the spec describes it. -/
def processPathSpec (p projectName : String) : String :=
  String.mk (replaceSpecGo projectName.data 0 p.data)

/-- Does the list contain an occurrence of the placeholder token? -/
def containsToken : List Char → Bool
  | [] => false
  | c :: cs => startsWithL tokenChars (c :: cs) || containsToken cs

/-! ### Path helpers

Abstractions of Node's `path` module.  No claim depends on path
normalization, so `join` is plain separator concatenation and `resolve`
only distinguishes absolute from relative second arguments; `dirname`
strips the last `/`-separated segment (matching Node on the
slash-free-tail inputs that occur in this program). -/

/-- Abstraction of Node `path.join(a, b)` (no normalization). -/
def pathJoin (a b : String) : String := a ++ "/" ++ b

/-- Is the path absolute (leading slash)? -/
def isAbsolutePath (p : String) : Bool :=
  match p.data with
  | [] => false
  | c :: _ => c == '/'

/-- Abstraction of Node `path.resolve(base, p)`. -/
def pathResolve (base p : String) : String :=
  if isAbsolutePath p then p else base ++ "/" ++ p

/-- Abstraction of Node `path.dirname`. -/
def pathDirname (p : String) : String :=
  match p.data.reverse.dropWhile (fun c => c != '/') with
  | [] => "."
  | _ :: rest => if rest.isEmpty then "/" else String.mk rest.reverse

/-! ### Data model

`platforms.json` is not part of the sources, so platform descriptors are
universally quantified data in every theorem.  `rootDirectories`
(index.js lines 13-17) is keyed by the platform names `android`, `ios`
and `www`; descriptor names are restricted to those keys (a name outside
the map would make the JavaScript crash on `path.join(root, undefined)`).
Icon specifications carry a name and a square `size`; splash
specifications carry a name, `width` and `height` (usage in
`generateIcon` / `generateSplash`, index.js lines 146-165). -/

inductive PlatformName
  | android
  | ios
  | www
deriving DecidableEq

/-- `rootDirectories` from index.js lines 13-17. -/
def rootDirectories : PlatformName → String
  | .android => "platforms/android"
  | .ios => "platforms/ios"
  | .www => "www"

structure IconSpec where
  name : String
  size : Nat
deriving DecidableEq

structure SplashSpec where
  name : String
  width : Nat
  height : Nat
deriving DecidableEq

/-- A platform descriptor as loaded from the platform configuration data.
The path templates may be absent; `getPlatforms` applies `|| ''`
(index.js lines 35-36). -/
structure PlatformInfo where
  name : PlatformName
  iconPath : Option String
  splashPath : Option String
  iconAssets : List IconSpec
  splashAssets : List SplashSpec
deriving DecidableEq

/-- A descriptor enriched by `getPlatforms` (index.js lines 38-45):
`_.extend(Object.create(platform), {isAdded, iconPath, splashPath})`. -/
structure ResolvedPlatform where
  name : PlatformName
  iconAssets : List IconSpec
  splashAssets : List SplashSpec
  isAdded : Bool
  iconPath : String
  splashPath : String
deriving DecidableEq

/-- The options object handed to `ig.resize` (index.js lines 125-132). -/
structure ResizeCall where
  srcPath : String
  dstPath : String
  quality : Nat
  format : String
  width : Nat
  height : Nat
deriving DecidableEq

/-- A filesystem error code: `ENOENT` ("not found") versus anything else
(e.g. permission denied).  `validParamFile` branches on
`error.code === 'ENOENT'` (index.js line 282). -/
inductive FsErr
  | enoent
  | other
deriving DecidableEq

/-- The keys of the global `program` object the pipeline indexes
(`program[type]`, index.js line 263). -/
inductive ParamKey
  | icon
  | splash
  | config
deriving DecidableEq

/-- Terminal error of a run, surfaced to the final `.catch`
(index.js lines 337-340). -/
inductive Err
  | fsError (path : String) (code : FsErr)
  | noPlatforms
  | noAssets
  | parseError
  | schemaError
  | resizeError (c : ResizeCall)
deriving DecidableEq

/-- Result of `fs.readFile`. -/
inductive ReadRes
  | ok (data : String)
  | err (e : FsErr)
deriving DecidableEq

/-- The parsed project configuration document, as far as the program looks
at it: `result.widget.name[0]` (index.js line 110).  A missing `widget` or
missing `name` makes the JavaScript throw a `TypeError` inside the promise
chain. -/
structure WidgetNode where
  name : Option (List String)
deriving DecidableEq

structure ConfigDoc where
  widget : Option WidgetNode
deriving DecidableEq

/-- The external collaborators, as oracles: `fs.stat` (resolving to
`isDirectory()`), `fs.readFile`, the XML parser, and whether each
`ig.resize` invocation succeeds. -/
structure World where
  stat : String → Except FsErr Bool
  read : String → ReadRes
  parse : String → Except Unit ConfigDoc
  resizeOk : ResizeCall → Bool

/-- The run configuration: the mutable fields of the global `program`
object the pipeline uses.  All three start as `some` CLI-resolved paths
(index.js lines 60-72); `validParamFile` may null an entry
(index.js line 276). -/
structure Config where
  icon : Option String
  splash : Option String
  config : Option String
deriving DecidableEq

/-- `program[type]` (read). -/
def Config.getParam (c : Config) : ParamKey → Option String
  | .icon => c.icon
  | .splash => c.splash
  | .config => c.config

/-- `program[type] = v` (write). -/
def Config.setParam (c : Config) : ParamKey → Option String → Config
  | .icon, v => { c with icon := v }
  | .splash, v => { c with splash := v }
  | .config, v => { c with config := v }

/-- JavaScript truthiness of a possibly-null string
(`program[type] &&` at index.js line 226). -/
def truthy : Option String → Bool
  | none => false
  | some s => !(s == "")

/-! ### The promise-pipeline monad

The promise chain is embedded as a state-and-error monad: the state holds
the run configuration (the mutable global `program`) and a trace of
observable effects (file reads, warnings, resize invocations); an error
models a rejected promise.  State written before a rejection persists,
exactly as side effects performed before a promise rejects do.  The
concurrency of the source (`Q.all` fan-out of independent probes/reads) is
serialized in promise-array order; no claim depends on completion
order. -/

/-- One observable effect. -/
inductive Event
  | readF (location : String)
  | warn (k : ParamKey)
  | resize (c : ResizeCall)
deriving DecidableEq

/-- Pipeline state: run configuration plus effect trace. -/
structure St where
  cfg : Config
  trace : List Event
deriving DecidableEq

/-- Outcome of running a pipeline fragment: resolved or rejected, with the
state it left behind. -/
inductive PRes (α : Type)
  | ok (a : α) (s : St)
  | err (e : Err) (s : St)
deriving DecidableEq

/-- A pipeline computation. -/
abbrev P (α : Type) : Type := St → PRes α

def P.pure (a : α) : P α := fun s => .ok a s

def P.bind (m : P α) (f : α → P β) : P β := fun s =>
  match m s with
  | .ok a s' => f a s'
  | .err e s' => .err e s'

instance : Monad P where
  pure := P.pure
  bind := P.bind

/-- A rejected promise. -/
def P.throw (e : Err) : P α := fun s => .err e s

/-- Read the global `program`. -/
def getCfg : P Config := fun s => .ok s.cfg s

/-- Mutate the global `program`. -/
def setCfg (c : Config) : P Unit := fun s => .ok () { s with cfg := c }

/-- Record an observable effect. -/
def emit (ev : Event) : P Unit := fun s => .ok () { s with trace := s.trace ++ [ev] }

/-- Run a fragment whose promise is dangling: its side effects happen, but
its resolution or rejection is not observed by the surrounding chain
(models a promise that was started and not returned). -/
def discardOutcome (m : P Unit) : P Unit := fun s =>
  match m s with
  | .ok _ s' => .ok () s'
  | .err _ s' => .ok () s'

/-! ### Platform resolution (`getPlatforms`, index.js lines 25-49)

For every descriptor the platform root is probed with `fs.stat`; the
resulting promise has no `catch`, so ANY stat failure - including plain
"not found" - rejects that platform's promise and with it the whole
`Q.all`.  On success the platform is marked
`isAdded: stat.isDirectory()`. -/

/-- Resolution of a single descriptor (the body of the `map` at
index.js lines 31-46). -/
def resolvePlatform (w : World) (projectRoot projectName : String)
    (pl : PlatformInfo) : Except Err ResolvedPlatform :=
  let platformRoot := rootDirectories pl.name
  let platformPath := pathJoin projectRoot platformRoot
  let iconPath := processPath (pl.iconPath.getD "") projectName
  let splashPath := processPath (pl.splashPath.getD "") projectName
  match w.stat platformPath with
  | .error e => .error (.fsError platformPath e)
  | .ok isDir =>
    .ok { name := pl.name, iconAssets := pl.iconAssets,
          splashAssets := pl.splashAssets, isAdded := isDir,
          iconPath := pathJoin platformPath iconPath,
          splashPath := pathJoin platformPath splashPath }

/-- `Q.all` over the descriptor list, serialized in array order (any
rejection rejects the whole resolution). -/
def resolvePlatformsAux (w : World) (projectRoot projectName : String) :
    List PlatformInfo → Except Err (List ResolvedPlatform)
  | [] => .ok []
  | pl :: rest =>
    match resolvePlatform w projectRoot projectName pl with
    | .error e => .error e
    | .ok r =>
      match resolvePlatformsAux w projectRoot projectName rest with
      | .error e => .error e
      | .ok rs => .ok (r :: rs)

/-- `getPlatforms(projectName)`: `projectName = projectName || ''` and
`projectRoot = path.dirname(program.config)`. -/
def resolvePlatforms (w : World) (cfg : Config) (projectNameArg : Option String)
    (pinfo : List PlatformInfo) : Except Err (List ResolvedPlatform) :=
  let projectName := projectNameArg.getD ""
  let projectRoot := pathDirname (cfg.config.getD "")
  resolvePlatformsAux w projectRoot projectName pinfo

/-! ### Asset generation (`generate` and helpers, index.js lines 121-230) -/

/-- The `imageMagickOptions` object built by `generateArtAsset`
(index.js lines 121-130), already extended with the caller's
`width`/`height` options (`_.extend` overrides nothing else, since the
option objects built at lines 147-150 and 161-164 carry only
`width`/`height`). -/
def mkImageMagickOptions (cfg : Config) (artAssetName srcPath dstPath : String)
    (width height : Nat) : ResizeCall :=
  let projectRoot := pathDirname (cfg.config.getD "")
  let destination := pathResolve projectRoot dstPath
  { srcPath := srcPath, dstPath := pathJoin destination artAssetName,
    quality := 1, format := "png", width := width, height := height }

/-- `generateArtAsset` (index.js lines 121-136): invoke `ig.resize` and
reject on failure (`display.success` is not traced). -/
def generateArtAsset (w : World) (artAssetName srcPath dstPath : String)
    (width height : Nat) : P Unit := do
  let cfg ← getCfg
  let call := mkImageMagickOptions cfg artAssetName srcPath dstPath width height
  emit (Event.resize call)
  if w.resizeOk call then P.pure () else P.throw (Err.resizeError call)

/-- `generateIcon` (index.js lines 146-151). -/
def generateIcon (w : World) (icon : IconSpec) (srcPath dstPath : String) : P Unit :=
  generateArtAsset w icon.name srcPath dstPath icon.size icon.size

/-- `generateSplash` (index.js lines 160-165). -/
def generateSplash (w : World) (splash : SplashSpec) (srcPath dstPath : String) : P Unit :=
  generateArtAsset w splash.name srcPath dstPath splash.width splash.height

/-- The promise-chain `reduce` pattern
`list.reduce((previous, a) => previous.then(() => k a), Q())`
(index.js lines 179-183 and 213-219). -/
def chainUnits (k : α → P Unit) (l : List α) : P Unit :=
  l.foldl (fun prev a => P.bind prev (fun _ => k a)) (P.pure ())

/-- `generateArtAssets(platform, 'icon', generateIcon)` specialized
(index.js lines 176-184, 192-194): each step reads `program.icon` at
invocation time. -/
def generateIcons (w : World) (p : ResolvedPlatform) : P Unit :=
  chainUnits
    (fun a => P.bind getCfg (fun cfg => generateIcon w a (cfg.icon.getD "") p.iconPath))
    p.iconAssets

/-- `generateArtAssets(platform, 'splash', generateSplash)` specialized
(index.js lines 176-184, 202-204). -/
def generateSplashes (w : World) (p : ResolvedPlatform) : P Unit :=
  chainUnits
    (fun a => P.bind getCfg (fun cfg => generateSplash w a (cfg.splash.getD "") p.splashPath))
    p.splashAssets

/-- `processPlatformFor('icon', platform, generateIcons)`
(index.js lines 223-229): skip unless `program.icon` is truthy and the
platform has icon specifications. -/
def processPlatformForIconPhase (w : World) (p : ResolvedPlatform) : P Unit := do
  let cfg ← getCfg
  if truthy cfg.icon && !p.iconAssets.isEmpty then generateIcons w p else P.pure ()

/-- `processPlatformFor('splash', platform, generateSplashes)`
(index.js lines 223-229). -/
def processPlatformForSplashPhase (w : World) (p : ResolvedPlatform) : P Unit := do
  let cfg ← getCfg
  if truthy cfg.splash && !p.splashAssets.isEmpty then generateSplashes w p else P.pure ()

/-- `generate(platforms)` (index.js lines 212-230): filter the platforms
marked `isAdded`, then chain, per platform, the icon phase followed by the
splash phase. -/
def generate (w : World) (platforms : List ResolvedPlatform) : P Unit :=
  chainUnits
    (fun p => P.bind (processPlatformForIconPhase w p)
      (fun _ => processPlatformForSplashPhase w p))
    (platforms.filter (fun p => p.isAdded))

/-! ### Validation stages (index.js lines 237-327) -/

/-- `atLeastOnePlatformFound` (index.js lines 237-251): resolve the
platforms with no project name; throw when none is `isAdded`
(the `NoPlatformsError` of the spec). -/
def atLeastOnePlatformFound (w : World) (pinfo : List PlatformInfo) : P Unit := do
  let cfg ← getCfg
  match resolvePlatforms w cfg none pinfo with
  | .error e => P.throw e
  | .ok ps =>
    if (ps.filter (fun p => p.isAdded)).length = 0 then P.throw Err.noPlatforms
    else P.pure ()

/-- `validParamFile(type, warningType, ...)` (index.js lines 262-289):
read `program[type]`; on success resolve `true`; on failure, if
`warningType` is truthy null the entry, warn and resolve `true`,
otherwise resolve `false` for `ENOENT` and rethrow any other error. -/
def validParamFile (w : World) (key : ParamKey) (warningType : Bool) : P Bool := do
  let cfg ← getCfg
  let location := (cfg.getParam key).getD ""
  emit (Event.readF location)
  match w.read location with
  | ReadRes.ok _ => P.pure true
  | ReadRes.err e =>
    if warningType then do
      setCfg (cfg.setParam key none)
      emit (Event.warn key)
      P.pure true
    else if e = FsErr.enoent then P.pure false
    else P.throw (Err.fsError location e)

/-- `validIconExists` (index.js line 296). -/
def validIconExists (w : World) : P Bool := validParamFile w ParamKey.icon true

/-- `validSplashExists` (index.js line 303). -/
def validSplashExists (w : World) : P Bool := validParamFile w ParamKey.splash true

/-- The inner `Q.all(...).spread(...)` promise of `validArtAssets`
(index.js lines 312-316), with the two reads serialized in array order. -/
def validArtAssetsInner (w : World) : P Unit := do
  let validIcon ← validIconExists w
  let validSplash ← validSplashExists w
  if !validIcon && !validSplash then P.throw Err.noAssets else P.pure ()

/-- `validArtAssets` (index.js lines 311-317): the inner promise is built
but NOT returned, so the surrounding chain never observes its outcome -
only its side effects happen. -/
def validArtAssets (w : World) : P Unit :=
  discardOutcome (validArtAssetsInner w)

/-- `configFileExists` (index.js lines 324-326):
`validParamFile.bind(null, 'config', false, ...)`. -/
def configFileExists (w : World) : P Bool := validParamFile w ParamKey.config false

/-- `getProjectName` (index.js lines 101-112): read the config file, parse
it, extract `result.widget.name[0]`.  A missing `widget` or `name` throws
(`SchemaError` in the spec's nomenclature); an empty `name` array yields
`undefined` (here `none`). -/
def getProjectName (w : World) : P (Option String) := do
  let cfg ← getCfg
  let location := cfg.config.getD ""
  emit (Event.readF location)
  match w.read location with
  | ReadRes.err e => P.throw (Err.fsError location e)
  | ReadRes.ok data =>
    match w.parse data with
    | .error _ => P.throw Err.parseError
    | .ok doc =>
      match doc.widget with
      | none => P.throw Err.schemaError
      | some wg =>
        match wg.name with
        | none => P.throw Err.schemaError
        | some names => P.pure names.head?

/-- The second `getPlatforms` call of the driver chain, now with the
extracted project name (index.js line 335). -/
def getPlatformsStage (w : World) (pinfo : List PlatformInfo)
    (name : Option String) : P (List ResolvedPlatform) := do
  let cfg ← getCfg
  match resolvePlatforms w cfg name pinfo with
  | .error e => P.throw e
  | .ok ps => P.pure ps

/-- The pipeline driver chain (index.js lines 331-336):
`atLeastOnePlatformFound().then(configFileExists).then(validArtAssets)
.then(getProjectName).then(getPlatforms).then(generate)`.  The final
`.catch` only reports the terminal outcome, which is the `PRes` itself. -/
def runPipeline (w : World) (pinfo : List PlatformInfo) : P Unit := do
  atLeastOnePlatformFound w pinfo
  let _ ← configFileExists w
  validArtAssets w
  let name ← getProjectName w
  let ps ← getPlatformsStage w pinfo name
  generate w ps

/-! ### Characterization of the generation phase

The work list a configuration and a resolved-platform list determine, and
the sequential fail-fast execution of that list. -/

/-- The resize invocation generated for one icon specification. -/
def iconCallOf (cfg : Config) (p : ResolvedPlatform) (a : IconSpec) : ResizeCall :=
  mkImageMagickOptions cfg a.name (cfg.icon.getD "") p.iconPath a.size a.size

/-- The resize invocation generated for one splash specification. -/
def splashCallOf (cfg : Config) (p : ResolvedPlatform) (a : SplashSpec) : ResizeCall :=
  mkImageMagickOptions cfg a.name (cfg.splash.getD "") p.splashPath a.width a.height

/-- The icon work items one added platform contributes. -/
def platformIconCalls (cfg : Config) (p : ResolvedPlatform) : List ResizeCall :=
  if truthy cfg.icon && !p.iconAssets.isEmpty then p.iconAssets.map (iconCallOf cfg p)
  else []

/-- The splash work items one added platform contributes. -/
def platformSplashCalls (cfg : Config) (p : ResolvedPlatform) : List ResizeCall :=
  if truthy cfg.splash && !p.splashAssets.isEmpty then p.splashAssets.map (splashCallOf cfg p)
  else []

/-- All work items of one added platform: icons first, then splashes. -/
def platformCalls (cfg : Config) (p : ResolvedPlatform) : List ResizeCall :=
  platformIconCalls cfg p ++ platformSplashCalls cfg p

/-- The full ordered work list of a run. -/
def allCalls (cfg : Config) (ps : List ResolvedPlatform) : List ResizeCall :=
  ((ps.filter (fun p => p.isAdded)).map (platformCalls cfg)).flatten

/-- Sequential fail-fast execution of a work list under a success oracle:
the invoked prefix (including the first failing call, which is invoked)
and the first failing call if any. -/
def seqSplit (ok : ResizeCall → Bool) : List ResizeCall → List ResizeCall × Option ResizeCall
  | [] => ([], none)
  | c :: cs =>
    if ok c then
      let r := seqSplit ok cs
      (c :: r.1, r.2)
    else ([c], some c)

/-- Outcome of executing a work list from configuration `cfg` and trace
`tr`: the invoked calls are appended to the trace, and the run resolves or
rejects with the first failure. -/
def seqOutcome (cfg : Config) (tr : List Event) :
    List ResizeCall × Option ResizeCall → PRes Unit
  | (done, none) => .ok () { cfg := cfg, trace := tr ++ done.map Event.resize }
  | (done, some c) =>
    .err (Err.resizeError c) { cfg := cfg, trace := tr ++ done.map Event.resize }

/-- The state a pipeline outcome left behind. -/
def PRes.state : PRes α → St
  | .ok _ s => s
  | .err _ s => s

/-! ### Validation-stage run equations -/

/-- Is an event a resize invocation? -/
def Event.isResize : Event → Bool
  | .resize _ => true
  | _ => false

/-- Did a read succeed? -/
def ReadRes.isOk : ReadRes → Bool
  | .ok _ => true
  | .err _ => false

/-! ### Worlds exhibiting the code/specification divergences -/

/-- Platform descriptors for the concrete runs (the static platform
configuration data is not in the sources; these are representative
instances). -/
def samplePlatformInfo : PlatformInfo :=
  { name := PlatformName.android,
    iconPath := some "res/icon/android",
    splashPath := some "res/screen/android",
    iconAssets := [⟨"icon-36.png", 36⟩, ⟨"icon-48.png", 48⟩, ⟨"icon-72.png", 72⟩],
    splashAssets := [⟨"splash-land.png", 800, 480⟩, ⟨"splash-port.png", 480, 800⟩] }

def iosPlatformInfo : PlatformInfo :=
  { name := PlatformName.ios,
    iconPath := some "$PROJECT_NAME/Resources/icons",
    splashPath := some "$PROJECT_NAME/Resources/splash",
    iconAssets := [⟨"icon-57.png", 57⟩],
    splashAssets := [] }

/-- A world where `platforms/android` exists (a directory) but
`platforms/ios` does not. -/
def missingIosWorld : World :=
  { stat := fun p => if p == "/proj/platforms/android" then Except.ok true
      else Except.error FsErr.enoent,
    read := fun _ => ReadRes.ok "xml",
    parse := fun _ => Except.ok { widget := some { name := some ["MyApp"] } },
    resizeOk := fun _ => true }

/-- A world where the configuration document is missing but everything
else is fine. -/
def missingConfigWorld : World :=
  { stat := fun _ => Except.ok true,
    read := fun p => if p == "/proj/config.xml" then ReadRes.err FsErr.enoent
      else ReadRes.ok "img",
    parse := fun _ => Except.error (),
    resizeOk := fun _ => true }

/-- A world where both source images are missing but the configuration
document is fine. -/
def missingAssetsWorld : World :=
  { stat := fun _ => Except.ok true,
    read := fun p => if p == "/proj/config.xml" then ReadRes.ok "xml"
      else ReadRes.err FsErr.enoent,
    parse := fun _ => Except.ok { widget := some { name := some ["MyApp"] } },
    resizeOk := fun _ => true }

/-- A world where only the splash source is missing. -/
def missingSplashWorld : World :=
  { stat := fun _ => Except.ok true,
    read := fun p => if p == "/cwd/splash.png" then ReadRes.err FsErr.enoent
      else ReadRes.ok "img",
    parse := fun _ => Except.ok { widget := some { name := some ["MyApp"] } },
    resizeOk := fun _ => true }

/-- A world where every platform root exists but none is a directory. -/
def notDirWorld : World :=
  { stat := fun _ => Except.ok false,
    read := fun _ => ReadRes.ok "xml",
    parse := fun _ => Except.ok { widget := some { name := some ["MyApp"] } },
    resizeOk := fun _ => true }

/-- A world where the configuration document parses to a widget without a
name. -/
def schemaWorld : World :=
  { stat := fun _ => Except.ok true,
    read := fun _ => ReadRes.ok "xml",
    parse := fun _ => Except.ok { widget := some { name := none } },
    resizeOk := fun _ => true }

/-! Sample data for the witnesses. -/

def sampleCfg : Config :=
  { icon := some "/cwd/icon.png",
    splash := some "/cwd/splash.png",
    config := some "/proj/config.xml" }

def samplePlatform : ResolvedPlatform :=
  { name := PlatformName.android,
    iconAssets := [⟨"icon-36.png", 36⟩, ⟨"icon-48.png", 48⟩, ⟨"icon-72.png", 72⟩],
    splashAssets := [⟨"splash-land.png", 800, 480⟩, ⟨"splash-port.png", 480, 800⟩],
    isAdded := true,
    iconPath := "/proj/platforms/android/res",
    splashPath := "/proj/platforms/android/res" }

/-- A world where everything succeeds. -/
def sampleWorld : World :=
  { stat := fun _ => Except.ok true,
    read := fun _ => ReadRes.ok "xml",
    parse := fun _ => Except.ok { widget := some { name := some ["MyApp"] } },
    resizeOk := fun _ => true }

/-- A world where the resize of the 48-pixel icon fails. -/
def sampleFailWorld : World :=
  { stat := fun _ => Except.ok true,
    read := fun _ => ReadRes.ok "xml",
    parse := fun _ => Except.ok { widget := some { name := some ["MyApp"] } },
    resizeOk := fun c => !(c.width == 48) }

/-! ### Theorems -/

/-! Lemmas about the templating function. -/

/-- GetSubstitution leaves a replacement string alone when it contains no
dollar character. -/
theorem getSubstitution_all_ne (matched before after : List Char) :
    ∀ (n : Nat) (repl : List Char), repl.length ≤ n → (∀ c ∈ repl, c ≠ '$') →
      getSubstitution matched before after repl = repl := by
  intro n
  induction n with
  | zero =>
    intro repl hlen _
    have : repl = [] := List.length_eq_zero.mp (Nat.le_zero.mp hlen)
    subst this; rfl
  | succ n ih =>
    intro repl hlen h
    match repl with
    | [] => rfl
    | [c] => rfl
    | c :: d :: rest =>
      have hc : c ≠ '$' := h c (by simp)
      have hcb : (c == '$') = false := by simpa using hc
      rw [getSubstitution, hcb]
      simp only [Bool.false_eq_true, if_false]
      have := ih (d :: rest) (by simpa using Nat.le_of_succ_le_succ hlen)
        (fun x hx => h x (List.mem_cons_of_mem c hx))
      rw [this]

/-- When the replacement contains no dollar character, JS replacement and
literal (spec) replacement coincide, for every skip state. -/
theorem replaceGo_eq_spec (repl : List Char) (hr : ∀ c ∈ repl, c ≠ '$') :
    ∀ (rest : List Char) (skip : Nat) (pre : List Char),
      replaceGo repl skip pre rest = replaceSpecGo repl skip rest := by
  intro rest
  induction rest with
  | nil => intro skip pre; cases skip <;> rfl
  | cons c cs ih =>
    intro skip pre
    cases skip with
    | succ s =>
      rw [replaceGo, replaceSpecGo]
      exact ih s (pre ++ [c])
    | zero =>
      rw [replaceGo, replaceSpecGo]
      by_cases hsw : startsWithL tokenChars (c :: cs) = true
      · rw [if_pos hsw, if_pos hsw,
          getSubstitution_all_ne tokenChars pre ((c :: cs).drop tokenChars.length)
            repl.length repl (Nat.le_refl _) hr, ih]
      · rw [if_neg hsw, if_neg hsw, ih]

/-- A string without any occurrence of the placeholder token is returned
unchanged. -/
theorem replaceGo_id (repl : List Char) :
    ∀ (rest : List Char), containsToken rest = false →
      ∀ pre, replaceGo repl 0 pre rest = rest := by
  intro rest
  induction rest with
  | nil => intro _ _; rfl
  | cons c cs ih =>
    intro h pre
    rw [containsToken, Bool.or_eq_false_iff] at h
    rw [replaceGo, if_neg (by rw [h.1]; exact Bool.false_ne_true)]
    rw [ih h.2 (pre ++ [c])]

/-- Claim C8 as amended: `processPath` replaces every occurrence of the
placeholder token with the project name provided the project name contains
no dollar character (JavaScript replacement-pattern escapes such as a
doubled dollar apply otherwise); and for every template that does not
contain the token, the result equals the template unchanged, for any
project name. -/
theorem C8_path_templating (t n : String) :
    (n.data.all (fun c => c != '$') = true → processPath t n = processPathSpec t n) ∧
    (containsToken t.data = false → processPath t n = t) := by
  constructor
  · intro h
    have hr : ∀ c ∈ n.data, c ≠ '$' := by
      intro c hc
      have := List.all_eq_true.mp h c hc
      simpa using this
    unfold processPath processPathSpec
    rw [replaceGo_eq_spec n.data hr t.data 0 []]
  · intro h
    unfold processPath
    rw [replaceGo_id n.data t.data h []]

/-- Witness for claim C8: a concrete substitution and a concrete
unchanged template. -/
theorem C8_witness :
    processPath "res/icon/$PROJECT_NAME.png" "MyApp"
        = processPathSpec "res/icon/$PROJECT_NAME.png" "MyApp" ∧
    processPath "res/icon/icon-60.png" "Fancy$App" = "res/icon/icon-60.png" :=
  ⟨(C8_path_templating "res/icon/$PROJECT_NAME.png" "MyApp").1 (by decide),
   (C8_path_templating "res/icon/icon-60.png" "Fancy$App").2 (by decide)⟩

/-- Counterexample for claim C8 as stated: with project name a doubled
dollar, JavaScript replacement-pattern semantics insert a single literal
dollar instead of the project name. -/
theorem C8_counterexample :
    processPath "$PROJECT_NAME" "$$" ≠ processPathSpec "$PROJECT_NAME" "$$" ∧
    processPath "$PROJECT_NAME" "$$" = "$" ∧
    processPathSpec "$PROJECT_NAME" "$$" = "$$" := by
  refine ⟨?_, by decide, by decide⟩
  decide

theorem run_bind (m : P α) (f : α → P β) (s : St) :
    (m >>= f) s = match m s with
      | .ok a s' => f a s'
      | .err e s' => .err e s' := rfl

theorem run_pure (a : α) (s : St) : (Pure.pure a : P α) s = .ok a s := rfl

theorem seqOutcome_shift (cfg : Config) (tr : List Event) (c : ResizeCall)
    (r : List ResizeCall × Option ResizeCall) :
    seqOutcome cfg (tr ++ [Event.resize c]) r = seqOutcome cfg tr (c :: r.1, r.2) := by
  rcases r with ⟨done, f⟩
  cases f <;> simp [seqOutcome]

theorem seqSplit_append (ok : ResizeCall → Bool) (l1 l2 : List ResizeCall) :
    seqSplit ok (l1 ++ l2) =
      match seqSplit ok l1 with
      | (d, some c) => (d, some c)
      | (d, none) => (d ++ (seqSplit ok l2).1, (seqSplit ok l2).2) := by
  induction l1 with
  | nil => simp [seqSplit]
  | cons c cs ih =>
    by_cases h : ok c = true
    · cases hs : seqSplit ok cs with
      | mk d f => cases f <;> simp [seqSplit, h, ih, hs]
    · simp [seqSplit, h]

theorem seqSplit_all_ok (ok : ResizeCall → Bool) (l : List ResizeCall)
    (h : ∀ c ∈ l, ok c = true) : seqSplit ok l = (l, none) := by
  induction l with
  | nil => rfl
  | cons c cs ih =>
    have hc := h c (by simp)
    simp [seqSplit, hc, ih (fun x hx => h x (List.mem_cons_of_mem c hx))]

theorem seqSplit_fail_at (ok : ResizeCall → Bool) (l1 l2 : List ResizeCall)
    (c : ResizeCall) (h1 : ∀ x ∈ l1, ok x = true) (hc : ok c = false) :
    seqSplit ok (l1 ++ c :: l2) = (l1 ++ [c], some c) := by
  induction l1 with
  | nil => simp [seqSplit, hc]
  | cons a as ih =>
    have ha := h1 a (by simp)
    simp [seqSplit, ha, ih (fun x hx => h1 x (List.mem_cons_of_mem a hx))]

theorem seqSplit_fst_subset (ok : ResizeCall → Bool) (l : List ResizeCall) :
    ∀ x ∈ (seqSplit ok l).1, x ∈ l := by
  induction l with
  | nil => simp [seqSplit]
  | cons c cs ih =>
    intro x hx
    by_cases h : ok c = true
    · simp only [seqSplit, h, if_true] at hx
      rcases List.mem_cons.mp hx with h' | h'
      · simp [h']
      · exact List.mem_cons_of_mem c (ih x h')
    · simp only [seqSplit, h] at hx
      simp at hx
      simp [hx]

/-! Run equations for the promise-chain `reduce` pattern. -/

theorem P.bind_run (m : P α) (f : α → P β) (s : St) :
    (P.bind m f) s = match m s with
      | .ok a s' => f a s'
      | .err e s' => .err e s' := rfl

theorem P.bind_assoc (m : P α) (f : α → P β) (g : β → P γ) :
    P.bind (P.bind m f) g = P.bind m (fun a => P.bind (f a) g) := by
  funext s
  simp only [P.bind]
  cases m s <;> rfl

theorem P.bind_pure_unit (m : P Unit) : P.bind m (fun _ => P.pure ()) = m := by
  funext s
  cases h : m s with
  | ok a s' => cases a; simp [P.bind, h, P.pure]
  | err e s' => simp [P.bind, h]

theorem foldl_chain (k : α → P Unit) :
    ∀ (l : List α) (m : P Unit),
      l.foldl (fun prev a => P.bind prev (fun _ => k a)) m =
        P.bind m (fun _ => chainUnits k l) := by
  intro l
  induction l with
  | nil =>
    intro m
    rw [List.foldl_nil]
    exact (P.bind_pure_unit m).symm
  | cons a as ih =>
    intro m
    rw [List.foldl_cons, ih, P.bind_assoc]
    have hcons : chainUnits k (a :: as) = P.bind (k a) (fun _ => chainUnits k as) :=
      ih (P.bind (P.pure ()) (fun _ => k a))
    rw [hcons]

theorem chainUnits_nil (k : α → P Unit) (s : St) : chainUnits k [] s = .ok () s := rfl

theorem chainUnits_cons (k : α → P Unit) (a : α) (l : List α) :
    chainUnits k (a :: l) = P.bind (k a) (fun _ => chainUnits k l) :=
  foldl_chain k l (P.bind (P.pure ()) (fun _ => k a))

theorem generateArtAsset_run (w : World) (artAssetName srcPath dstPath : String)
    (width height : Nat) (s : St) :
    generateArtAsset w artAssetName srcPath dstPath width height s =
      (if w.resizeOk (mkImageMagickOptions s.cfg artAssetName srcPath dstPath width height)
       then PRes.ok ()
         { s with trace := s.trace ++
             [Event.resize (mkImageMagickOptions s.cfg artAssetName srcPath dstPath width height)] }
       else PRes.err
         (Err.resizeError (mkImageMagickOptions s.cfg artAssetName srcPath dstPath width height))
         { s with trace := s.trace ++
             [Event.resize (mkImageMagickOptions s.cfg artAssetName srcPath dstPath width height)] }) := by
  by_cases h : w.resizeOk (mkImageMagickOptions s.cfg artAssetName srcPath dstPath width height) = true
  · simp [generateArtAsset, run_bind, getCfg, emit, P.pure, h]
  · simp only [Bool.not_eq_true] at h
    simp [generateArtAsset, run_bind, getCfg, emit, P.throw, h]

/-- Generic run equation for one generation phase: a chain over an asset
list where each step reads the configuration and invokes
`generateArtAsset`. -/
theorem chain_art_run (w : World) (nameF : α → String) (srcF : Config → String)
    (dst : String) (wF hF : α → Nat) :
    ∀ (assets : List α) (s : St),
      chainUnits
        (fun a => P.bind getCfg
          (fun cfg => generateArtAsset w (nameF a) (srcF cfg) dst (wF a) (hF a)))
        assets s =
      seqOutcome s.cfg s.trace
        (seqSplit w.resizeOk
          (assets.map (fun a => mkImageMagickOptions s.cfg (nameF a) (srcF s.cfg) dst (wF a) (hF a)))) := by
  intro assets
  induction assets with
  | nil =>
    intro s
    simp [chainUnits, P.pure, seqSplit, seqOutcome]
  | cons a as ih =>
    intro s
    rw [chainUnits_cons]
    have h0 : (P.bind getCfg
        (fun cfg => generateArtAsset w (nameF a) (srcF cfg) dst (wF a) (hF a))) s =
        generateArtAsset w (nameF a) (srcF s.cfg) dst (wF a) (hF a) s := rfl
    by_cases h : w.resizeOk (mkImageMagickOptions s.cfg (nameF a) (srcF s.cfg) dst (wF a) (hF a)) = true
    · have hm : (P.bind getCfg
          (fun cfg => generateArtAsset w (nameF a) (srcF cfg) dst (wF a) (hF a))) s =
          PRes.ok () { s with trace := s.trace ++
            [Event.resize (mkImageMagickOptions s.cfg (nameF a) (srcF s.cfg) dst (wF a) (hF a))] } := by
        rw [h0, generateArtAsset_run, if_pos h]
      rw [P.bind_run, hm]
      refine Eq.trans (ih { s with trace := s.trace ++
        [Event.resize (mkImageMagickOptions s.cfg (nameF a) (srcF s.cfg) dst (wF a) (hF a))] }) ?_
      rw [seqOutcome_shift]
      simp [List.map_cons, seqSplit, h]
    · simp only [Bool.not_eq_true] at h
      have hm : (P.bind getCfg
          (fun cfg => generateArtAsset w (nameF a) (srcF cfg) dst (wF a) (hF a))) s =
          PRes.err (Err.resizeError (mkImageMagickOptions s.cfg (nameF a) (srcF s.cfg) dst (wF a) (hF a)))
            { s with trace := s.trace ++
              [Event.resize (mkImageMagickOptions s.cfg (nameF a) (srcF s.cfg) dst (wF a) (hF a))] } := by
        rw [h0, generateArtAsset_run, if_neg (by simp [h])]
      rw [P.bind_run, hm]
      simp [List.map_cons, seqSplit, h, seqOutcome]

theorem generateIcons_run (w : World) (p : ResolvedPlatform) (s : St) :
    generateIcons w p s =
      seqOutcome s.cfg s.trace
        (seqSplit w.resizeOk (p.iconAssets.map (iconCallOf s.cfg p))) := by
  exact chain_art_run w (fun a : IconSpec => a.name)
    (fun cfg => cfg.icon.getD "") p.iconPath (fun a => a.size) (fun a => a.size)
    p.iconAssets s

theorem generateSplashes_run (w : World) (p : ResolvedPlatform) (s : St) :
    generateSplashes w p s =
      seqOutcome s.cfg s.trace
        (seqSplit w.resizeOk (p.splashAssets.map (splashCallOf s.cfg p))) := by
  exact chain_art_run w (fun a : SplashSpec => a.name)
    (fun cfg => cfg.splash.getD "") p.splashPath (fun a => a.width) (fun a => a.height)
    p.splashAssets s

theorem processPlatformForIconPhase_run (w : World) (p : ResolvedPlatform) (s : St) :
    processPlatformForIconPhase w p s =
      seqOutcome s.cfg s.trace (seqSplit w.resizeOk (platformIconCalls s.cfg p)) := by
  by_cases h : (truthy s.cfg.icon && !p.iconAssets.isEmpty) = true
  · have h1 : processPlatformForIconPhase w p s = generateIcons w p s := by
      simp only [processPlatformForIconPhase, run_bind, getCfg]
      rw [if_pos h]
    rw [h1, generateIcons_run]
    simp [platformIconCalls, h]
  · have h1 : processPlatformForIconPhase w p s = PRes.ok () s := by
      simp only [processPlatformForIconPhase, run_bind, getCfg]
      rw [if_neg h]
      rfl
    rw [h1]
    simp [platformIconCalls, h, seqSplit, seqOutcome]

theorem processPlatformForSplashPhase_run (w : World) (p : ResolvedPlatform) (s : St) :
    processPlatformForSplashPhase w p s =
      seqOutcome s.cfg s.trace (seqSplit w.resizeOk (platformSplashCalls s.cfg p)) := by
  by_cases h : (truthy s.cfg.splash && !p.splashAssets.isEmpty) = true
  · have h1 : processPlatformForSplashPhase w p s = generateSplashes w p s := by
      simp only [processPlatformForSplashPhase, run_bind, getCfg]
      rw [if_pos h]
    rw [h1, generateSplashes_run]
    simp [platformSplashCalls, h]
  · have h1 : processPlatformForSplashPhase w p s = PRes.ok () s := by
      simp only [processPlatformForSplashPhase, run_bind, getCfg]
      rw [if_neg h]
      rfl
    rw [h1]
    simp [platformSplashCalls, h, seqSplit, seqOutcome]

/-- Composing two characterized fragments concatenates their work lists
(the second fragment's work list may be computed from the configuration,
which the first fragment preserves). -/
theorem seqOutcome_compose (w : World) (m1 m2 : P Unit) (l1 l2 : List ResizeCall)
    (s : St)
    (h1 : m1 s = seqOutcome s.cfg s.trace (seqSplit w.resizeOk l1))
    (h2 : ∀ s' : St, s'.cfg = s.cfg →
      m2 s' = seqOutcome s'.cfg s'.trace (seqSplit w.resizeOk l2)) :
    (P.bind m1 (fun _ => m2)) s =
      seqOutcome s.cfg s.trace (seqSplit w.resizeOk (l1 ++ l2)) := by
  rw [seqSplit_append]
  cases hs1 : seqSplit w.resizeOk l1 with
  | mk d1 f1 =>
    cases f1 with
    | some c =>
      have hm1 : m1 s = PRes.err (Err.resizeError c)
          { cfg := s.cfg, trace := s.trace ++ d1.map Event.resize } := by
        rw [h1, hs1]; rfl
      simp [P.bind, hm1, seqOutcome]
    | none =>
      have hm1 : m1 s = PRes.ok ()
          { cfg := s.cfg, trace := s.trace ++ d1.map Event.resize } := by
        rw [h1, hs1]; rfl
      have hm2 := h2 { cfg := s.cfg, trace := s.trace ++ d1.map Event.resize } rfl
      simp only [P.bind, hm1]
      rw [hm2]
      cases hs2 : seqSplit w.resizeOk l2 with
      | mk d2 f2 => cases f2 <;> simp [seqOutcome, hs2]

theorem platformPair_run (w : World) (p : ResolvedPlatform) (s : St) :
    (P.bind (processPlatformForIconPhase w p)
      (fun _ => processPlatformForSplashPhase w p)) s =
      seqOutcome s.cfg s.trace (seqSplit w.resizeOk (platformCalls s.cfg p)) := by
  have h := seqOutcome_compose w (processPlatformForIconPhase w p)
    (processPlatformForSplashPhase w p)
    (platformIconCalls s.cfg p) (platformSplashCalls s.cfg p) s
    (processPlatformForIconPhase_run w p s)
    (fun s' hs' => by rw [processPlatformForSplashPhase_run w p s', hs'])
  rw [platformCalls]
  exact h

theorem generate_chain_run (w : World) :
    ∀ (l : List ResolvedPlatform) (s : St),
      chainUnits
        (fun p => P.bind (processPlatformForIconPhase w p)
          (fun _ => processPlatformForSplashPhase w p)) l s =
        seqOutcome s.cfg s.trace
          (seqSplit w.resizeOk ((l.map (platformCalls s.cfg)).flatten)) := by
  intro l
  induction l with
  | nil =>
    intro s
    simp [chainUnits_nil, seqSplit, seqOutcome]
  | cons p ps ih =>
    intro s
    rw [chainUnits_cons]
    have h := seqOutcome_compose w
      (P.bind (processPlatformForIconPhase w p)
        (fun _ => processPlatformForSplashPhase w p))
      (chainUnits
        (fun p => P.bind (processPlatformForIconPhase w p)
          (fun _ => processPlatformForSplashPhase w p)) ps)
      (platformCalls s.cfg p) ((ps.map (platformCalls s.cfg)).flatten) s
      (platformPair_run w p s)
      (fun s' hs' => by rw [ih s', hs'])
    simpa using h

/-- The central run equation for `generate`: the invoked resize calls are
exactly the sequential fail-fast execution of `allCalls`, the
configuration is untouched, and the pre-existing trace is preserved. -/
theorem generate_run (w : World) (ps : List ResolvedPlatform) (s : St) :
    generate w ps s =
      seqOutcome s.cfg s.trace (seqSplit w.resizeOk (allCalls s.cfg ps)) := by
  show chainUnits _ (ps.filter (fun p => p.isAdded)) s = _
  rw [generate_chain_run]
  rfl

theorem mkImageMagickOptions_quality (cfg : Config) (n src dst : String) (wd ht : Nat) :
    (mkImageMagickOptions cfg n src dst wd ht).quality = 1 := rfl

theorem mkImageMagickOptions_format (cfg : Config) (n src dst : String) (wd ht : Nat) :
    (mkImageMagickOptions cfg n src dst wd ht).format = "png" := rfl

/-- Provenance of a work item: every call in `allCalls` belongs to an added
platform and projects an icon or splash specification. -/
theorem mem_allCalls (cfg : Config) (ps : List ResolvedPlatform) (c : ResizeCall)
    (h : c ∈ allCalls cfg ps) :
    ∃ p, p ∈ ps ∧ p.isAdded = true ∧
      ((∃ a ∈ p.iconAssets, c = iconCallOf cfg p a) ∨
       (∃ a ∈ p.splashAssets, c = splashCallOf cfg p a)) := by
  simp only [allCalls, List.mem_flatten, List.mem_map, List.mem_filter] at h
  obtain ⟨l, ⟨p, ⟨hp, hpadd⟩, hl⟩, hcl⟩ := h
  subst hl
  refine ⟨p, hp, hpadd, ?_⟩
  rcases List.mem_append.mp hcl with hi | hs
  · left
    by_cases hg : (truthy cfg.icon && !p.iconAssets.isEmpty) = true
    · simp only [platformIconCalls, hg, if_true, List.mem_map] at hi
      obtain ⟨a, ha, hac⟩ := hi
      exact ⟨a, ha, hac.symm⟩
    · simp [platformIconCalls, hg] at hi
  · right
    by_cases hg : (truthy cfg.splash && !p.splashAssets.isEmpty) = true
    · simp only [platformSplashCalls, hg, if_true, List.mem_map] at hs
      obtain ⟨a, ha, hac⟩ := hs
      exact ⟨a, ha, hac.symm⟩
    · simp [platformSplashCalls, hg] at hs

/-- Claim C1: for a single added platform with three icon specifications
and two splash specifications, both sources present, and every resize
succeeding, generation invokes the resize capability exactly five times,
in order: the three icon specifications in declared order, then the two
splash specifications in declared order. -/
theorem C1_generation_order (w : World) (cfg : Config) (p : ResolvedPlatform)
    (i1 i2 i3 : IconSpec) (sp1 sp2 : SplashSpec) (tr : List Event)
    (hic : truthy cfg.icon = true) (hsp : truthy cfg.splash = true)
    (hadd : p.isAdded = true)
    (hia : p.iconAssets = [i1, i2, i3]) (hsa : p.splashAssets = [sp1, sp2])
    (hok : ∀ c, w.resizeOk c = true) :
    generate w [p] { cfg := cfg, trace := tr } =
      PRes.ok () { cfg := cfg, trace := tr ++ [
        Event.resize (iconCallOf cfg p i1), Event.resize (iconCallOf cfg p i2),
        Event.resize (iconCallOf cfg p i3), Event.resize (splashCallOf cfg p sp1),
        Event.resize (splashCallOf cfg p sp2)] } := by
  rw [generate_run]
  have hcalls : allCalls cfg [p] =
      [iconCallOf cfg p i1, iconCallOf cfg p i2, iconCallOf cfg p i3,
       splashCallOf cfg p sp1, splashCallOf cfg p sp2] := by
    simp [allCalls, platformCalls, platformIconCalls, platformSplashCalls,
      hadd, hia, hsa, hic, hsp]
  rw [hcalls, seqSplit_all_ok _ _ (fun c _ => hok c)]
  simp [seqOutcome]

/-- Claim C5: if the resize for some work unit fails, no later unit is
invoked (across all remaining platforms and asset types), the run
terminates reporting that failure, and the trace of earlier work - and the
pre-existing trace - is preserved (nothing is removed). -/
theorem C5_failfast (w : World) (cfg : Config) (ps : List ResolvedPlatform)
    (tr : List Event) (l1 l2 : List ResizeCall) (c : ResizeCall)
    (hsplit : allCalls cfg ps = l1 ++ c :: l2)
    (hok : ∀ x ∈ l1, w.resizeOk x = true)
    (hfail : w.resizeOk c = false) :
    generate w ps { cfg := cfg, trace := tr } =
      PRes.err (Err.resizeError c)
        { cfg := cfg, trace := tr ++ (l1 ++ [c]).map Event.resize } := by
  rw [generate_run]
  show seqOutcome cfg tr _ = _
  rw [hsplit, seqSplit_fail_at _ _ _ _ hok hfail]
  rfl

/-- Claim C10: every resize invocation of a generation run carries
`quality = 1` and `format = "png"`, the corresponding source path, the
destination path (resolved output directory joined with the
specification's name), and the specification's dimensions - i.e. it equals
`iconCallOf` or `splashCallOf` for some specification of some added
platform. -/
theorem C10_resize_options (w : World) (cfg : Config) (ps : List ResolvedPlatform)
    (c : ResizeCall)
    (h : Event.resize c ∈ (generate w ps { cfg := cfg, trace := [] }).state.trace) :
    c.quality = 1 ∧ c.format = "png" ∧
      ∃ p, p ∈ ps ∧ p.isAdded = true ∧
        ((∃ a ∈ p.iconAssets, c = iconCallOf cfg p a) ∨
         (∃ a ∈ p.splashAssets, c = splashCallOf cfg p a)) := by
  rw [generate_run] at h
  have hmem : c ∈ allCalls cfg ps := by
    cases hs : seqSplit w.resizeOk (allCalls cfg ps) with
    | mk done f =>
      have htr : (seqOutcome cfg [] (done, f)).state.trace = done.map Event.resize := by
        cases f <;> simp [seqOutcome, PRes.state]
      rw [hs, htr] at h
      have hc : c ∈ done := by
        simp only [List.mem_map] at h
        obtain ⟨x, hx, hxc⟩ := h
        cases hxc
        exact hx
      have := seqSplit_fst_subset w.resizeOk (allCalls cfg ps) c
      rw [hs] at this
      exact this hc
  obtain ⟨p, hp, hadd, hform⟩ := mem_allCalls cfg ps c hmem
  refine ⟨?_, ?_, p, hp, hadd, hform⟩
  · rcases hform with ⟨a, _, hc⟩ | ⟨a, _, hc⟩ <;> rw [hc] <;> rfl
  · rcases hform with ⟨a, _, hc⟩ | ⟨a, _, hc⟩ <;> rw [hc] <;> rfl

theorem validParamFile_warn_ok (w : World) (key : ParamKey) (s : St) (data : String)
    (h : w.read ((s.cfg.getParam key).getD "") = ReadRes.ok data) :
    validParamFile w key true s =
      PRes.ok true
        { cfg := s.cfg,
          trace := s.trace ++ [Event.readF ((s.cfg.getParam key).getD "")] } := by
  simp [validParamFile, run_bind, getCfg, emit, P.pure, h]

theorem validParamFile_warn_err (w : World) (key : ParamKey) (s : St) (e : FsErr)
    (h : w.read ((s.cfg.getParam key).getD "") = ReadRes.err e) :
    validParamFile w key true s =
      PRes.ok true
        { cfg := s.cfg.setParam key none,
          trace := s.trace ++ [Event.readF ((s.cfg.getParam key).getD ""), Event.warn key] } := by
  simp [validParamFile, run_bind, getCfg, emit, setCfg, P.pure, h]

theorem configFileExists_ok (w : World) (s : St) (data : String)
    (h : w.read ((s.cfg.getParam ParamKey.config).getD "") = ReadRes.ok data) :
    configFileExists w s =
      PRes.ok true
        { cfg := s.cfg,
          trace := s.trace ++ [Event.readF ((s.cfg.getParam ParamKey.config).getD "")] } := by
  simp [configFileExists, validParamFile, run_bind, getCfg, emit, P.pure, h]

theorem configFileExists_enoent (w : World) (s : St)
    (h : w.read ((s.cfg.getParam ParamKey.config).getD "") = ReadRes.err FsErr.enoent) :
    configFileExists w s =
      PRes.ok false
        { cfg := s.cfg,
          trace := s.trace ++ [Event.readF ((s.cfg.getParam ParamKey.config).getD "")] } := by
  simp [configFileExists, validParamFile, run_bind, getCfg, emit, P.pure, h]

theorem configFileExists_other (w : World) (s : St)
    (h : w.read ((s.cfg.getParam ParamKey.config).getD "") = ReadRes.err FsErr.other) :
    configFileExists w s =
      PRes.err (Err.fsError ((s.cfg.getParam ParamKey.config).getD "") FsErr.other)
        { cfg := s.cfg,
          trace := s.trace ++ [Event.readF ((s.cfg.getParam ParamKey.config).getD "")] } := by
  simp [configFileExists, validParamFile, run_bind, getCfg, emit, P.throw, h]

/-- Whatever the two source reads yield, `validArtAssets` resolves, leaves
the `config` entry untouched, and emits no resize invocation. -/
theorem validArtAssets_run (w : World) (s : St) :
    ∃ (c' : Config) (evs : List Event),
      validArtAssets w s = PRes.ok () { cfg := c', trace := s.trace ++ evs } ∧
      c'.config = s.cfg.config ∧
      evs.all (fun ev => !ev.isResize) = true := by
  rcases h1 : w.read (s.cfg.icon.getD "") with d1 | e1 <;>
    rcases h2 : w.read (s.cfg.splash.getD "") with d2 | e2
  · exact ⟨s.cfg,
      [Event.readF (s.cfg.icon.getD ""),
       Event.readF (s.cfg.splash.getD "")],
      by simp [validArtAssets, discardOutcome, validArtAssetsInner, validIconExists,
        validSplashExists, validParamFile, run_bind, getCfg, emit, P.pure,
        Config.setParam, Config.getParam, h1, h2],
      rfl, by simp [Event.isResize]⟩
  · exact ⟨{ s.cfg with splash := none },
      [Event.readF (s.cfg.icon.getD ""),
       Event.readF (s.cfg.splash.getD ""),
       Event.warn ParamKey.splash],
      by simp [validArtAssets, discardOutcome, validArtAssetsInner, validIconExists,
        validSplashExists, validParamFile, run_bind, getCfg, emit, setCfg, P.pure,
        Config.setParam, Config.getParam, h1, h2],
      rfl, by simp [Event.isResize]⟩
  · exact ⟨{ s.cfg with icon := none },
      [Event.readF (s.cfg.icon.getD ""),
       Event.warn ParamKey.icon,
       Event.readF (s.cfg.splash.getD "")],
      by simp [validArtAssets, discardOutcome, validArtAssetsInner, validIconExists,
        validSplashExists, validParamFile, run_bind, getCfg, emit, setCfg, P.pure,
        Config.setParam, Config.getParam, h1, h2],
      rfl, by simp [Event.isResize]⟩
  · exact ⟨{ s.cfg with icon := none, splash := none },
      [Event.readF (s.cfg.icon.getD ""),
       Event.warn ParamKey.icon,
       Event.readF (s.cfg.splash.getD ""),
       Event.warn ParamKey.splash],
      by simp [validArtAssets, discardOutcome, validArtAssetsInner, validIconExists,
        validSplashExists, validParamFile, run_bind, getCfg, emit, setCfg, P.pure,
        Config.setParam, Config.getParam, h1, h2],
      rfl, by simp [Event.isResize]⟩

theorem atLeastOnePlatformFound_some (w : World) (pinfo : List PlatformInfo)
    (s : St) (ps : List ResolvedPlatform)
    (hres : resolvePlatforms w s.cfg none pinfo = Except.ok ps)
    (hsome : (ps.filter (fun p => p.isAdded)).length ≠ 0) :
    atLeastOnePlatformFound w pinfo s = PRes.ok () s := by
  simp only [atLeastOnePlatformFound, run_bind, getCfg, hres]
  rw [if_neg hsome]
  rfl

theorem atLeastOnePlatformFound_zero (w : World) (pinfo : List PlatformInfo)
    (s : St) (ps : List ResolvedPlatform)
    (hres : resolvePlatforms w s.cfg none pinfo = Except.ok ps)
    (hzero : ps.filter (fun p => p.isAdded) = []) :
    atLeastOnePlatformFound w pinfo s = PRes.err Err.noPlatforms s := by
  simp only [atLeastOnePlatformFound, run_bind, getCfg, hres]
  rw [if_pos (by rw [hzero]; rfl)]
  rfl

theorem getProjectName_schema (w : World) (s : St) (cp data : String) (doc : ConfigDoc)
    (hcp : s.cfg.config = some cp)
    (hread : w.read cp = ReadRes.ok data)
    (hparse : w.parse data = Except.ok doc)
    (hschema : doc.widget = none ∨ ∃ wg, doc.widget = some wg ∧ wg.name = none) :
    getProjectName w s =
      PRes.err Err.schemaError { cfg := s.cfg, trace := s.trace ++ [Event.readF cp] } := by
  rcases hschema with hw | ⟨wg, hw, hn⟩
  · simp [getProjectName, run_bind, getCfg, emit, P.throw, hcp, hread, hparse, hw]
  · simp [getProjectName, run_bind, getCfg, emit, P.throw, hcp, hread, hparse, hw, hn]

/-! ### Pipeline-level claim theorems -/

/-- Claim C6: with an unreadable splash source but a readable icon source,
asset validation resolves (the run goes on), the run configuration's
splash source is nulled with a warning emitted, and the generation work
list of the resulting configuration contains no splash call for any
platform - it is exactly the icon work list. -/
theorem C6_splash_soft_disable (w : World) (s : St) (iconSrc splashSrc : String)
    (hi : s.cfg.icon = some iconSrc) (hs : s.cfg.splash = some splashSrc)
    (hir : (w.read iconSrc).isOk = true) (hsr : (w.read splashSrc).isOk = false) :
    validArtAssets w s =
      PRes.ok ()
        { cfg := { s.cfg with splash := none },
          trace := s.trace ++ [Event.readF iconSrc, Event.readF splashSrc,
            Event.warn ParamKey.splash] } ∧
    (∀ p, platformSplashCalls { s.cfg with splash := none } p = []) ∧
    (∀ ps, allCalls { s.cfg with splash := none } ps =
      ((ps.filter (fun p => p.isAdded)).map
        (fun p => platformIconCalls { s.cfg with splash := none } p)).flatten) := by
  refine ⟨?_, ?_, ?_⟩
  · rcases hro : w.read iconSrc with d1 | e1
    · rcases hrs : w.read splashSrc with d2 | e2
      · rw [hrs] at hsr
        simp [ReadRes.isOk] at hsr
      · have h1 : w.read (s.cfg.icon.getD "") = ReadRes.ok d1 := by rw [hi]; exact hro
        have h2 : w.read (s.cfg.splash.getD "") = ReadRes.err e2 := by rw [hs]; exact hrs
        have hloc1 : (s.cfg.icon.getD "") = iconSrc := by rw [hi]; rfl
        have hloc2 : (s.cfg.splash.getD "") = splashSrc := by rw [hs]; rfl
        rw [← hloc1, ← hloc2]
        simp [validArtAssets, discardOutcome, validArtAssetsInner, validIconExists,
          validSplashExists, validParamFile, run_bind, getCfg, emit, setCfg, P.pure,
          Config.setParam, Config.getParam, h1, h2]
    · rw [hro] at hir
      simp [ReadRes.isOk] at hir
  · intro p
    simp [platformSplashCalls, truthy]
  · intro ps
    have hpc : platformCalls { s.cfg with splash := none } =
        fun p => platformIconCalls { s.cfg with splash := none } p := by
      funext p
      simp [platformCalls, platformSplashCalls, truthy]
    rw [allCalls, hpc]

/-- Claim C7: when platform resolution succeeds but marks no platform as
added, the pipeline fails with the no-platforms error, with an empty
effect trace (no configuration or source file read, no warning, no resize)
and the run configuration unchanged. -/
theorem C7_no_platforms (w : World) (pinfo : List PlatformInfo) (cfg : Config)
    (ps : List ResolvedPlatform)
    (hres : resolvePlatforms w cfg none pinfo = Except.ok ps)
    (hzero : ps.filter (fun p => p.isAdded) = []) :
    runPipeline w pinfo { cfg := cfg, trace := [] } =
      PRes.err Err.noPlatforms { cfg := cfg, trace := [] } := by
  have h1 := atLeastOnePlatformFound_zero w pinfo { cfg := cfg, trace := [] } ps hres hzero
  simp [runPipeline, run_bind, h1]

/-- Claim C9: when the parsed configuration document lacks `widget.name`,
the pipeline fails with the schema error and its trace holds no resize
invocation (no generation occurred). -/
theorem C9_schema_error (w : World) (pinfo : List PlatformInfo) (cfg : Config)
    (cp data : String) (ps0 : List ResolvedPlatform) (doc : ConfigDoc)
    (hcp : cfg.config = some cp)
    (hres : resolvePlatforms w cfg none pinfo = Except.ok ps0)
    (hsome : (ps0.filter (fun p => p.isAdded)).length ≠ 0)
    (hread : w.read cp = ReadRes.ok data)
    (hparse : w.parse data = Except.ok doc)
    (hschema : doc.widget = none ∨ ∃ wg, doc.widget = some wg ∧ wg.name = none) :
    ∃ s', runPipeline w pinfo { cfg := cfg, trace := [] } = PRes.err Err.schemaError s' ∧
      s'.trace.all (fun ev => !ev.isResize) = true := by
  have h1 := atLeastOnePlatformFound_some w pinfo { cfg := cfg, trace := [] } ps0 hres hsome
  have hloc : (({ cfg := cfg, trace := [] } : St).cfg.getParam ParamKey.config).getD "" = cp := by
    simp [Config.getParam, hcp]
  have h2 := configFileExists_ok w { cfg := cfg, trace := [] } data (by rw [hloc]; exact hread)
  rw [hloc] at h2
  simp only [List.nil_append] at h2
  obtain ⟨c2, evs, h3, h3c, h3r⟩ :=
    validArtAssets_run w { cfg := cfg, trace := [Event.readF cp] }
  have h3' : validArtAssets w { cfg := cfg, trace := [Event.readF cp] } =
      PRes.ok () { cfg := c2, trace := Event.readF cp :: evs } := by simpa using h3
  have h4 := getProjectName_schema w { cfg := c2, trace := Event.readF cp :: evs }
    cp data doc (by simpa using h3c.trans hcp) hread hparse hschema
  have h4' : getProjectName w { cfg := c2, trace := Event.readF cp :: evs } =
      PRes.err Err.schemaError
        { cfg := c2, trace := Event.readF cp :: (evs ++ [Event.readF cp]) } := by
    simpa using h4
  refine ⟨{ cfg := c2, trace := Event.readF cp :: (evs ++ [Event.readF cp]) }, ?_, ?_⟩
  · simp only [runPipeline, run_bind, h1, h2, h3', h4']
  · have hx : ∀ x ∈ evs, x.isResize = false := by
      intro x hxm
      have hb := List.all_eq_true.mp h3r x hxm
      simpa using hb
    simp [List.all_cons, List.all_append, Event.isResize]
    intro x hxm
    have hb := hx x hxm
    simpa [Event.isResize] using hb

/-- Claim C2, evaluated at the failing input: with `platforms/android`
present and `platforms/ios` absent, `getPlatforms` has no handler for the
failed `fs.stat`, so the whole resolution - and with it the platform
presence check - rejects with the `ENOENT` error instead of resolving two
platforms with one `isAdded = false`. -/
theorem C2_enoent_fatal :
    resolvePlatforms missingIosWorld sampleCfg none [samplePlatformInfo, iosPlatformInfo] =
      Except.error (Err.fsError "/proj/platforms/ios" FsErr.enoent) ∧
    atLeastOnePlatformFound missingIosWorld [samplePlatformInfo, iosPlatformInfo]
        { cfg := sampleCfg, trace := [] } =
      PRes.err (Err.fsError "/proj/platforms/ios" FsErr.enoent)
        { cfg := sampleCfg, trace := [] } := by
  constructor
  · rfl
  · rfl

/-- Claim C3, evaluated at the failing input: with the configuration
document missing, `configFileExists` resolves `false` instead of
rejecting, the chain ignores the boolean and continues - the source-asset
validation stage still reads both sources - and the run only fails later,
inside `getProjectName`, with the raw read error rather than a
config-stage failure. -/
theorem C3_missing_config_not_fatal :
    configFileExists missingConfigWorld { cfg := sampleCfg, trace := [] } =
      PRes.ok false { cfg := sampleCfg, trace := [Event.readF "/proj/config.xml"] } ∧
    runPipeline missingConfigWorld [samplePlatformInfo] { cfg := sampleCfg, trace := [] } =
      PRes.err (Err.fsError "/proj/config.xml" FsErr.enoent)
        { cfg := sampleCfg,
          trace := [Event.readF "/proj/config.xml", Event.readF "/cwd/icon.png",
            Event.readF "/cwd/splash.png", Event.readF "/proj/config.xml"] } := by
  constructor
  · rfl
  · rfl

/-- Claim C4, evaluated at the failing input: with both sources missing,
both checks still resolve `true` (they null the sources and warn), the
inner promise of `validArtAssets` resolves - the `NoAssetsError` throw is
unreachable - and, since that promise is not returned, the pipeline runs
to successful completion performing zero resize invocations. -/
theorem C4_no_assets_not_fatal :
    validArtAssetsInner missingAssetsWorld { cfg := sampleCfg, trace := [] } =
      PRes.ok ()
        { cfg := { icon := none, splash := none, config := some "/proj/config.xml" },
          trace := [Event.readF "/cwd/icon.png", Event.warn ParamKey.icon,
            Event.readF "/cwd/splash.png", Event.warn ParamKey.splash] } ∧
    runPipeline missingAssetsWorld [samplePlatformInfo] { cfg := sampleCfg, trace := [] } =
      PRes.ok ()
        { cfg := { icon := none, splash := none, config := some "/proj/config.xml" },
          trace := [Event.readF "/proj/config.xml", Event.readF "/cwd/icon.png",
            Event.warn ParamKey.icon, Event.readF "/cwd/splash.png",
            Event.warn ParamKey.splash, Event.readF "/proj/config.xml"] } := by
  constructor
  · rfl
  · rfl

/-- Witness for claim C1: the five resize invocations of the sample
platform, in declared order. -/
theorem C1_witness :
    generate sampleWorld [samplePlatform] { cfg := sampleCfg, trace := [] } =
      PRes.ok () { cfg := sampleCfg, trace := [
        Event.resize (iconCallOf sampleCfg samplePlatform ⟨"icon-36.png", 36⟩),
        Event.resize (iconCallOf sampleCfg samplePlatform ⟨"icon-48.png", 48⟩),
        Event.resize (iconCallOf sampleCfg samplePlatform ⟨"icon-72.png", 72⟩),
        Event.resize (splashCallOf sampleCfg samplePlatform ⟨"splash-land.png", 800, 480⟩),
        Event.resize (splashCallOf sampleCfg samplePlatform ⟨"splash-port.png", 480, 800⟩)] } :=
  C1_generation_order sampleWorld sampleCfg samplePlatform
    ⟨"icon-36.png", 36⟩ ⟨"icon-48.png", 48⟩ ⟨"icon-72.png", 72⟩
    ⟨"splash-land.png", 800, 480⟩ ⟨"splash-port.png", 480, 800⟩ []
    (by decide) (by decide) (by decide) rfl rfl (fun c => rfl)

/-- Witness for claim C5: the second of the five sample work units fails;
only the first two are invoked, the failure is reported, and the first
asset's trace entry is preserved. -/
theorem C5_witness :
    generate sampleFailWorld [samplePlatform] { cfg := sampleCfg, trace := [] } =
      PRes.err (Err.resizeError (iconCallOf sampleCfg samplePlatform ⟨"icon-48.png", 48⟩))
        { cfg := sampleCfg, trace := [
          Event.resize (iconCallOf sampleCfg samplePlatform ⟨"icon-36.png", 36⟩),
          Event.resize (iconCallOf sampleCfg samplePlatform ⟨"icon-48.png", 48⟩)] } :=
  C5_failfast sampleFailWorld sampleCfg [samplePlatform] []
    [iconCallOf sampleCfg samplePlatform ⟨"icon-36.png", 36⟩]
    [iconCallOf sampleCfg samplePlatform ⟨"icon-72.png", 72⟩,
     splashCallOf sampleCfg samplePlatform ⟨"splash-land.png", 800, 480⟩,
     splashCallOf sampleCfg samplePlatform ⟨"splash-port.png", 480, 800⟩]
    (iconCallOf sampleCfg samplePlatform ⟨"icon-48.png", 48⟩)
    (by decide) (by decide) (by decide)

/-- Witness for claim C10: a concrete invoked call carries the fixed
options and projects its icon specification. -/
theorem C10_witness :
    (iconCallOf sampleCfg samplePlatform ⟨"icon-36.png", 36⟩).quality = 1 ∧
    (iconCallOf sampleCfg samplePlatform ⟨"icon-36.png", 36⟩).format = "png" ∧
    ∃ p, p ∈ [samplePlatform] ∧ p.isAdded = true ∧
      ((∃ a ∈ p.iconAssets,
          iconCallOf sampleCfg samplePlatform ⟨"icon-36.png", 36⟩ = iconCallOf sampleCfg p a) ∨
       (∃ a ∈ p.splashAssets,
          iconCallOf sampleCfg samplePlatform ⟨"icon-36.png", 36⟩ = splashCallOf sampleCfg p a)) :=
  C10_resize_options sampleWorld sampleCfg [samplePlatform]
    (iconCallOf sampleCfg samplePlatform ⟨"icon-36.png", 36⟩) (by decide)

/-- Witness for claim C6: with the splash source missing and the icon
source present, validation resolves nulling the splash source with a
warning, and the work list of the sample platform has no splash calls. -/
theorem C6_witness :
    validArtAssets missingSplashWorld { cfg := sampleCfg, trace := [] } =
      PRes.ok ()
        { cfg := { sampleCfg with splash := none },
          trace := [Event.readF "/cwd/icon.png", Event.readF "/cwd/splash.png",
            Event.warn ParamKey.splash] } ∧
    platformSplashCalls { sampleCfg with splash := none } samplePlatform = [] ∧
    allCalls { sampleCfg with splash := none } [samplePlatform] =
      (([samplePlatform].filter (fun p => p.isAdded)).map
        (fun p => platformIconCalls { sampleCfg with splash := none } p)).flatten :=
  ⟨(C6_splash_soft_disable missingSplashWorld { cfg := sampleCfg, trace := [] }
      "/cwd/icon.png" "/cwd/splash.png" rfl rfl rfl rfl).1,
   (C6_splash_soft_disable missingSplashWorld { cfg := sampleCfg, trace := [] }
      "/cwd/icon.png" "/cwd/splash.png" rfl rfl rfl rfl).2.1 samplePlatform,
   (C6_splash_soft_disable missingSplashWorld { cfg := sampleCfg, trace := [] }
      "/cwd/icon.png" "/cwd/splash.png" rfl rfl rfl rfl).2.2 [samplePlatform]⟩

/-- Witness for claim C7: all platform roots exist as plain files (so
resolution succeeds with zero added platforms); the pipeline fails with
the no-platforms error and an empty trace. -/
theorem C7_witness :
    runPipeline notDirWorld [samplePlatformInfo] { cfg := sampleCfg, trace := [] } =
      PRes.err Err.noPlatforms { cfg := sampleCfg, trace := [] } :=
  C7_no_platforms notDirWorld [samplePlatformInfo] sampleCfg
    [{ name := PlatformName.android,
       iconAssets := [⟨"icon-36.png", 36⟩, ⟨"icon-48.png", 48⟩, ⟨"icon-72.png", 72⟩],
       splashAssets := [⟨"splash-land.png", 800, 480⟩, ⟨"splash-port.png", 480, 800⟩],
       isAdded := false,
       iconPath := "/proj/platforms/android/res/icon/android",
       splashPath := "/proj/platforms/android/res/screen/android" }]
    rfl (by decide)

/-- Witness for claim C9: a parsed document whose widget has no name makes
the pipeline fail with the schema error, with no resize in the trace. -/
theorem C9_witness :
    ∃ s', runPipeline schemaWorld [samplePlatformInfo] { cfg := sampleCfg, trace := [] } =
      PRes.err Err.schemaError s' ∧
      s'.trace.all (fun ev => !ev.isResize) = true :=
  C9_schema_error schemaWorld [samplePlatformInfo] sampleCfg "/proj/config.xml" "xml"
    [{ name := PlatformName.android,
       iconAssets := [⟨"icon-36.png", 36⟩, ⟨"icon-48.png", 48⟩, ⟨"icon-72.png", 72⟩],
       splashAssets := [⟨"splash-land.png", 800, 480⟩, ⟨"splash-port.png", 480, 800⟩],
       isAdded := true,
       iconPath := "/proj/platforms/android/res/icon/android",
       splashPath := "/proj/platforms/android/res/screen/android" }]
    { widget := some { name := none } }
    rfl rfl (by decide) rfl rfl (Or.inr ⟨{ name := none }, rfl, rfl⟩)

end CordovaIcon

